import Mathlib

/-!
Verification development for a mining block-model visualizer.

The program ingests comma-separated block-model data (`parseCSV`), normalizes
coordinates against the component-wise minimum centroid
(`computeCoordinateOffset`), colors blocks by rock type, builds box geometry
with axis remapping and height exaggeration (`createBlockModel`), and drives an
axis-aligned clipping-plane state machine from UI events.

Modelling conventions for the shallow embedding:

* JavaScript numbers are modelled by `JSNum`: either NaN, one of the two
  infinities, or an exact rational.  Binary-float rounding and overflow are
  idealized away (every decimal literal is read exactly); the special values
  NaN and Infinity, which drive the parser's row filtering and `Math.min`,
  are modelled faithfully.
* `parseFloat` is modelled by `jsParseFloat`: leading whitespace is skipped,
  an optional sign is read, then either a literal `Infinity` or a maximal
  decimal prefix (integer part, optional fraction, optional exponent); if no
  digits are found the result is NaN.
* Strings are Lean `String`s; `String.splitOn` has the same semantics as the
  JavaScript `split` used by the source for nonempty separators.
* The scene graph is modelled by the data the claims mention: the list of mesh
  materials (each holding its `clippingPlanes` array), the three clip planes
  (each holding its `constant`), the plane helpers, and the renderer's
  `localClippingEnabled` flag.  `THREE.PlaneHelper` instances are line
  objects, not meshes, so the `scene.traverse` passes that rewrite mesh
  materials do not touch them.
-/

/-- Model of a JavaScript number as used by this program: NaN, an infinity, or
a finite value (idealized as an exact rational). -/
inductive JSNum where
  | nan : JSNum
  | posInf : JSNum
  | negInf : JSNum
  | fin (q : ℚ) : JSNum
deriving DecidableEq, Repr, Inhabited

/-- JavaScript `isNaN` on an already-parsed number. -/
def JSNum.isNaN : JSNum → Bool
  | .nan => true
  | _ => false

/-- JavaScript `Number.isFinite`. -/
def JSNum.isFinite : JSNum → Bool
  | .fin _ => true
  | _ => false

/-- The rational value of a finite `JSNum` (0 for the non-finite values). -/
def JSNum.toQ : JSNum → ℚ
  | .fin q => q
  | _ => 0

/-- JavaScript `Math.min` on two numbers: NaN-propagating, infinities ordered
as usual. -/
def JSNum.min : JSNum → JSNum → JSNum
  | .nan, _ => .nan
  | _, .nan => .nan
  | .negInf, _ => .negInf
  | _, .negInf => .negInf
  | .posInf, b => b
  | a, .posInf => a
  | .fin a, .fin b => .fin (Min.min a b)

/-- JavaScript subtraction: NaN-propagating, `∞ - ∞ = NaN`. -/
def JSNum.sub : JSNum → JSNum → JSNum
  | .nan, _ => .nan
  | _, .nan => .nan
  | .posInf, .posInf => .nan
  | .posInf, _ => .posInf
  | .negInf, .negInf => .nan
  | .negInf, _ => .negInf
  | .fin _, .posInf => .negInf
  | .fin _, .negInf => .posInf
  | .fin a, .fin b => .fin (a - b)

/-- JavaScript multiplication: NaN-propagating, `∞ * 0 = NaN`, signs as
usual. -/
def JSNum.mul : JSNum → JSNum → JSNum
  | .nan, _ => .nan
  | _, .nan => .nan
  | .posInf, .posInf => .posInf
  | .posInf, .negInf => .negInf
  | .negInf, .posInf => .negInf
  | .negInf, .negInf => .posInf
  | .posInf, .fin b => if b = 0 then .nan else if 0 < b then .posInf else .negInf
  | .negInf, .fin b => if b = 0 then .nan else if 0 < b then .negInf else .posInf
  | .fin a, .posInf => if a = 0 then .nan else if 0 < a then .posInf else .negInf
  | .fin a, .negInf => if a = 0 then .nan else if 0 < a then .negInf else .posInf
  | .fin a, .fin b => .fin (a * b)

/-- JavaScript comparison `x >= 0` (false for NaN). -/
def JSNum.nonneg : JSNum → Bool
  | .nan => false
  | .posInf => true
  | .negInf => false
  | .fin q => decide (0 ≤ q)

/-- The whitespace characters skipped by `parseFloat` and removed by
`String.prototype.trim` (the ASCII ones; the source data is ASCII). -/
def isJSWhitespace (c : Char) : Bool :=
  c == ' ' || c == '\t' || c == '\n' || c == '\r' || c == '\x0b' || c == '\x0c'

/-- Value of a list of decimal digit characters. -/
def digitsVal (ds : List Char) : ℕ :=
  ds.foldl (fun n c => 10 * n + (c.toNat - 48)) 0

/-- The exponent read after the `e`/`E` of a decimal literal: an optional sign
followed by digits; if no digits follow, the exponent marker is ignored
(JavaScript keeps the mantissa parsed so far). -/
def expValOf (t : List Char) : ℤ :=
  let st : ℤ × List Char :=
    match t with
    | '+' :: u => (1, u)
    | '-' :: u => (-1, u)
    | _ => (1, t)
  let eDs := st.2.takeWhile Char.isDigit
  if eDs.isEmpty then 0 else st.1 * (digitsVal eDs : ℤ)

/-- Maximal decimal prefix after the optional sign: integer digits, optional
point with fraction digits, optional exponent.  NaN when there is no digit
before the exponent position. -/
def parseDecimal (neg : Bool) (cs : List Char) : JSNum :=
  let intDs := cs.takeWhile Char.isDigit
  let rest1 := cs.drop intDs.length
  let fracDs : List Char :=
    match rest1 with
    | '.' :: t => t.takeWhile Char.isDigit
    | _ => []
  let rest2 : List Char :=
    match rest1 with
    | '.' :: t => t.drop fracDs.length
    | _ => rest1
  if intDs.isEmpty && fracDs.isEmpty then JSNum.nan
  else
    let e : ℤ :=
      match rest2 with
      | 'e' :: t => expValOf t
      | 'E' :: t => expValOf t
      | _ => 0
    let mantissa : ℚ := (digitsVal intDs : ℚ) + (digitsVal fracDs : ℚ) / ((10 : ℚ) ^ fracDs.length)
    let sign : ℚ := if neg then -1 else 1
    JSNum.fin (sign * mantissa * (10 : ℚ) ^ e)

/-- After the optional sign: a literal `Infinity`, else a decimal prefix. -/
def parseSigned (neg : Bool) (cs : List Char) : JSNum :=
  if "Infinity".toList.isPrefixOf cs then
    (if neg then JSNum.negInf else JSNum.posInf)
  else parseDecimal neg cs

/-- Model of JavaScript `parseFloat`. -/
def jsParseFloat (s : String) : JSNum :=
  let cs := s.toList.dropWhile isJSWhitespace
  match cs with
  | '+' :: rest => parseSigned false rest
  | '-' :: rest => parseSigned true rest
  | rest => parseSigned false rest

/-- One parsed mining block (the source's `BlockData` interface). -/
structure BlockData where
  centroid_x : JSNum
  centroid_y : JSNum
  centroid_z : JSNum
  dim_x : JSNum
  dim_y : JSNum
  dim_z : JSNum
  rock : String
deriving DecidableEq, Repr, Inhabited

/-- JavaScript `Array.prototype.indexOf` for strings: index of the first
occurrence, `none` standing for the sentinel -1. -/
def indexOfName (a : String) : List String → Option ℕ
  | [] => none
  | x :: xs => if x = a then some 0 else (indexOfName a xs).map (· + 1)

/-- True when `line.trim()` is the empty string, i.e. the line is blank. -/
def jsTrimEmpty (s : String) : Bool :=
  s.toList.all isJSWhitespace

/-- The `BlockData` object built from one split row (source lines 410-419):
the first six fields through `parseFloat` in fixed order, and the rock label
taken from the header-detected index when that index is in range, `"unknown"`
otherwise. -/
def recordOfValues (rockIndex : Option ℕ) (values : List String) : BlockData :=
  { centroid_x := jsParseFloat (values.getD 0 "")
    centroid_y := jsParseFloat (values.getD 1 "")
    centroid_z := jsParseFloat (values.getD 2 "")
    dim_x := jsParseFloat (values.getD 3 "")
    dim_y := jsParseFloat (values.getD 4 "")
    dim_z := jsParseFloat (values.getD 5 "")
    rock :=
      match rockIndex with
      | some r => if r < values.length then values.getD r "" else "unknown"
      | none => "unknown" }

/-- The parsing loop over the lines after the first three (source lines
401-430): skip blank lines, skip rows with fewer than six comma-separated
fields, skip rows whose parsed centroid-x or dim-x is NaN, keep the rest in
order. -/
def parseCSVLines (rockIndex : Option ℕ) : List String → List BlockData
  | [] => []
  | line :: rest =>
    if jsTrimEmpty line then parseCSVLines rockIndex rest
    else
      let values := line.splitOn ","
      if values.length < 6 then parseCSVLines rockIndex rest
      else
        let block := recordOfValues rockIndex values
        if block.centroid_x.isNaN || block.dim_x.isNaN then parseCSVLines rockIndex rest
        else block :: parseCSVLines rockIndex rest

/-- The source's `parseCSV`: split on newlines, locate the `rock` column in
the first line, then parse every line from index 3 on. -/
def parseCSV (csvText : String) : List BlockData :=
  let lines := csvText.splitOn "\n"
  let headers := (lines.getD 0 "").splitOn ","
  let rockIndex := indexOfName "rock" headers
  parseCSVLines rockIndex (lines.drop 3)

/-- A 3-component vector of JavaScript numbers (`THREE.Vector3`). -/
structure Vec3 where
  x : JSNum
  y : JSNum
  z : JSNum
deriving DecidableEq, Repr, Inhabited

/-- The source's `computeCoordinateOffset`: one pass over the blocks taking
`Math.min` per axis, starting from `Infinity` on each. -/
def computeCoordinateOffset (blocks : List BlockData) : Vec3 :=
  blocks.foldl
    (fun acc b => ⟨acc.x.min b.centroid_x, acc.y.min b.centroid_y, acc.z.min b.centroid_z⟩)
    ⟨.posInf, .posInf, .posInf⟩

/-- Deduplication keeping the first occurrence of each string, the order
produced by `[...new Set(xs)]`. -/
def dedupFirst : List String → List String
  | [] => []
  | x :: xs => x :: dedupFirst (xs.filter (fun y => y != x))
termination_by l => l.length
decreasing_by
  simp only [List.length_cons]
  exact Nat.lt_succ_of_le (List.length_filter_le _ xs)

/-- The distinct rock labels of a dataset in first-occurrence order
(source line 474). -/
def rockTypesOf (blocks : List BlockData) : List String :=
  dedupFirst (blocks.map (fun b => b.rock))

/-- A color given by hue, saturation and lightness, as passed to
`THREE.Color().setHSL` (the HSL-to-RGB conversion is the rendering
library's). -/
structure HSLColor where
  hue : ℚ
  sat : ℚ
  light : ℚ
deriving DecidableEq, Repr, Inhabited

/-- The rock color table (source lines 478-483): label `i` of `k` receives
hue `i / k` at saturation 0.8 and lightness 0.6. -/
def rockColorsOf (blocks : List BlockData) : List (String × HSLColor) :=
  let ts := rockTypesOf blocks
  ts.enum.map (fun p => (p.2, ⟨(p.1 : ℚ) / (ts.length : ℚ), 4/5, 3/5⟩))

/-- The source's `scaleFactor` constant (overall horizontal scale-down). -/
def scaleFactor : ℚ := 7/10

/-- The source's `heightScaleFactor` constant (height exaggeration). -/
def heightScaleFactor : ℚ := 2

/-- One created box primitive: the `BoxGeometry` extents and the mesh
position, in renderer axes (renderer y is the source z / elevation, renderer
z is the source y). -/
structure RenderedBox where
  dims : Vec3
  pos : Vec3
deriving DecidableEq, Repr, Inhabited

/-- The geometry and position built for one block (source lines 516-530),
parameterized by the two scale constants: extents
`(dim_x*hs, dim_z*hs*hh, dim_y*hs)` and position
`(cx-ox, (cz-oz)*hh, cy-oy)`. -/
def renderBoxWith (hs hh : ℚ) (off : Vec3) (b : BlockData) : RenderedBox :=
  { dims := ⟨b.dim_x.mul (.fin hs),
             (b.dim_z.mul (.fin hs)).mul (.fin hh),
             b.dim_y.mul (.fin hs)⟩
    pos := ⟨b.centroid_x.sub off.x,
            (b.centroid_z.sub off.z).mul (.fin hh),
            b.centroid_y.sub off.y⟩ }

/-- The box built with the source's constant scale factors. -/
def renderBox (off : Vec3) (b : BlockData) : RenderedBox :=
  renderBoxWith scaleFactor heightScaleFactor off b

/-- The source's `maxBlocks` cap. -/
def maxVisibleBlocks : ℕ := 5000

/-- The source's prefix truncation: `blocks.slice(0, maxBlocks)` when over
the cap, all blocks otherwise. -/
def visibleBlocksOf (blocks : List BlockData) : List BlockData :=
  if maxVisibleBlocks < blocks.length then blocks.take maxVisibleBlocks else blocks

/-- All box primitives created by `createBlockModel`: the visible blocks are
grouped by rock label (keys in first-occurrence order; for integer-like
labels the JavaScript object would order keys numerically, which permutes
groups but creates the same boxes) and one box is created per block of each
group. -/
def renderBoxesOf (off : Vec3) (blocks : List BlockData) : List RenderedBox :=
  let visible := visibleBlocksOf blocks
  (rockTypesOf visible).flatMap
    (fun r => (visible.filter (fun b => b.rock == r)).map (renderBox off))

/-- Outcome of one `loadData` run on fetched text: either a built scene
(offset plus created boxes) or the logged no-data outcome in which neither
the offset nor any scene object is computed. -/
inductive LoadResult where
  | built (offset : Vec3) (boxes : List RenderedBox) : LoadResult
  | emptyLogged : LoadResult
deriving DecidableEq, Repr

/-- The source's `loadData` after the text is fetched: parse, and only when
at least one block was parsed compute the offset and build the model;
otherwise log and stop (source lines 368-380). -/
def loadDataModel (text : String) : LoadResult :=
  let data := parseCSV text
  if 0 < data.length then
    let off := computeCoordinateOffset data
    .built off (renderBoxesOf off data)
  else .emptyLogged

/-- The three axis-aligned clip planes of the source's `clipPlanes` object. -/
inductive PlaneKey where
  | xy : PlaneKey
  | yz : PlaneKey
  | xz : PlaneKey
deriving DecidableEq, Repr

/-- One value per clip plane. -/
structure PlaneTriple (α : Type) where
  xy : α
  yz : α
  xz : α
deriving DecidableEq, Repr

/-- Read the component for a plane. -/
def PlaneTriple.get {α : Type} (t : PlaneTriple α) : PlaneKey → α
  | .xy => t.xy
  | .yz => t.yz
  | .xz => t.xz

/-- Replace the component for a plane. -/
def PlaneTriple.set {α : Type} (t : PlaneTriple α) : PlaneKey → α → PlaneTriple α
  | .xy, v => { t with xy := v }
  | .yz, v => { t with yz := v }
  | .xz, v => { t with xz := v }

/-- One mesh material, holding its `clippingPlanes` array (as references to
the shared plane objects) and its `clipIntersection` flag. -/
structure Material where
  clippingPlanes : List PlaneKey
  clipIntersection : Bool
deriving DecidableEq, Repr, Inhabited

/-- The clipping-relevant state of the application: the `constant` of each of
the three shared planes, which plane helpers exist and are visible, the
active plane, the slider value `clipPosition`, every mesh material in the
scene, and the renderer's `localClippingEnabled` flag. -/
structure ClipState where
  planeConstants : PlaneTriple ℚ
  helperExists : PlaneTriple Bool
  helperVisible : PlaneTriple Bool
  activeClipPlane : Option PlaneKey
  clipPosition : ℚ
  materials : List Material
  localClippingEnabled : Bool
deriving DecidableEq, Repr

/-- State as the constructor leaves it: plane constants 0, no helpers, no
active plane, slider at 0, clipping disabled, and whatever meshes the scene
holds. -/
def initClipState (mats : List Material) : ClipState :=
  { planeConstants := ⟨0, 0, 0⟩
    helperExists := ⟨false, false, false⟩
    helperVisible := ⟨false, false, false⟩
    activeClipPlane := none
    clipPosition := 0
    materials := mats
    localClippingEnabled := false }

/-- Hide every helper that exists (`Object.values(clipPlaneHelpers)` iterates
only created helpers). -/
def hideExistingHelpers (ex vis : PlaneTriple Bool) : PlaneTriple Bool :=
  ⟨if ex.xy then false else vis.xy,
   if ex.yz then false else vis.yz,
   if ex.xz then false else vis.xz⟩

/-- The source's `updateClipPlane`: nothing while no plane is active; else
set the active plane's `constant` to the negated slider value and show its
helper if one exists. -/
def updateClipPlane (s : ClipState) : ClipState :=
  match s.activeClipPlane with
  | none => s
  | some p =>
    let s1 := { s with planeConstants := s.planeConstants.set p (-s.clipPosition) }
    if s1.helperExists.get p then
      { s1 with helperVisible := s1.helperVisible.set p true }
    else s1

/-- The source's `disableClipping`: hide all existing helpers, strip the
clipping-plane references from every mesh material, clear the active plane,
and turn the renderer flag off. -/
def disableClipping (s : ClipState) : ClipState :=
  { s with
    helperVisible := hideExistingHelpers s.helperExists s.helperVisible
    materials := s.materials.map (fun m => { m with clippingPlanes := [] })
    activeClipPlane := none
    localClippingEnabled := false }

/-- The source's `setActiveClipPlane`: disable current clipping, record the
new active plane, create its helper on first use (a fresh helper is
visible), point every mesh material at the one shared plane with
`clipIntersection := false`, reposition the plane, and enable the renderer
flag. -/
def setActiveClipPlane (p : PlaneKey) (s : ClipState) : ClipState :=
  let s1 := disableClipping s
  let s2 := { s1 with activeClipPlane := some p }
  let s3 :=
    if s2.helperExists.get p then s2
    else { s2 with helperExists := s2.helperExists.set p true
                   helperVisible := s2.helperVisible.set p true }
  let newMats := s3.materials.map (fun m => { m with clippingPlanes := [p], clipIntersection := false })
  let s4 := { s3 with materials := newMats }
  let s5 := updateClipPlane s4
  { s5 with localClippingEnabled := true }

/-- The slider handler (source lines 611-614): store the new value and call
`updateClipPlane`. -/
def setClipOffset (v : ℚ) (s : ClipState) : ClipState :=
  updateClipPlane { s with clipPosition := v }

/-- The UI events that drive the clipping state machine. -/
inductive ClipEvent where
  | selectPlane (p : PlaneKey) : ClipEvent
  | setOffset (v : ℚ) : ClipEvent
  | disable : ClipEvent

/-- One UI event applied to the state. -/
def clipStep (s : ClipState) (e : ClipEvent) : ClipState :=
  match e with
  | .selectPlane p => setActiveClipPlane p s
  | .setOffset v => setClipOffset v s
  | .disable => disableClipping s

/-- A whole sequence of UI events applied in order. -/
def runClip (s : ClipState) (evs : List ClipEvent) : ClipState :=
  evs.foldl clipStep s

/-- Spec-side row predicate, amended reading: a data line is kept when it is
non-blank, splits into at least six comma-separated fields, and its first
and fourth fields parse to something other than NaN. -/
def rowKept (line : String) : Bool :=
  !(jsTrimEmpty line)
  && (let values := line.splitOn ","
      decide (6 ≤ values.length)
      && !(jsParseFloat (values.getD 0 "")).isNaN
      && !(jsParseFloat (values.getD 3 "")).isNaN)

/-- Spec-side row predicate exactly as the claim states it: the first and
fourth fields must parse as finite numbers. -/
def rowKeptFinite (line : String) : Bool :=
  !(jsTrimEmpty line)
  && (let values := line.splitOn ","
      decide (6 ≤ values.length)
      && (jsParseFloat (values.getD 0 "")).isFinite
      && (jsParseFloat (values.getD 3 "")).isFinite)

/-- Spec-side box exactly as the claim states it: the height-exaggeration
multiplier scales the vertical extent and position, and the horizontal
extents and horizontal positions are scaled by the separate scale-down
constant. -/
def specBoxOf (hs hh : ℚ) (off : Vec3) (b : BlockData) : RenderedBox :=
  { dims := ⟨b.dim_x.mul (.fin hs),
             (b.dim_z.mul (.fin hs)).mul (.fin hh),
             b.dim_y.mul (.fin hs)⟩
    pos := ⟨(b.centroid_x.sub off.x).mul (.fin hs),
            (b.centroid_z.sub off.z).mul (.fin hh),
            (b.centroid_y.sub off.y).mul (.fin hs)⟩ }

/-- All three centroid components of every block are finite. -/
def allCentroidsFinite (blocks : List BlockData) : Bool :=
  blocks.all (fun b => b.centroid_x.isFinite && b.centroid_y.isFinite && b.centroid_z.isFinite)

/-- The parsing loop keeps exactly the rows satisfying `rowKept`, mapped
through `recordOfValues`, in order. -/
theorem parseCSVLines_eq_filterMap (ri : Option ℕ) (ls : List String) :
    parseCSVLines ri ls =
      (ls.filter rowKept).map (fun line => recordOfValues ri (line.splitOn ",")) := by
  induction ls with
  | nil => rfl
  | cons line rest ih =>
    by_cases h1 : jsTrimEmpty line
    · simp [parseCSVLines, rowKept, h1, ih]
    · by_cases h2 : (line.splitOn ",").length < 6
      · simp [parseCSVLines, rowKept, h1, h2, Nat.not_le.mpr h2, ih]
      · by_cases hx : (jsParseFloat ((line.splitOn ",")[0]?.getD "")).isNaN
        · simp [parseCSVLines, rowKept, recordOfValues, h1, h2, hx, Nat.le_of_not_lt h2, ih]
        · by_cases hd : (jsParseFloat ((line.splitOn ",")[3]?.getD "")).isNaN
          · simp [parseCSVLines, rowKept, recordOfValues, h1, h2, hx, hd,
              Nat.le_of_not_lt h2, ih]
          · simp [parseCSVLines, rowKept, recordOfValues, h1, h2, hx, hd,
              Nat.le_of_not_lt h2, ih]

/-- C1 (amended): for every input text, `parseCSV` skips the first three
lines and keeps exactly those later lines that are non-blank, split into at
least six comma-separated fields, and whose first and fourth fields parse to
a non-NaN number (a field parsing to Infinity is kept); each kept line
becomes the record built by `recordOfValues` with the header-detected rock
index.  In particular the four-line scenario input yields exactly one record
with centroid (10,20,30), dims (2,2,2), rock granite. -/
theorem parseCSV_keeps_exactly_nonNaN_rows (text : String) :
    parseCSV text =
      (((text.splitOn "\n").drop 3).filter rowKept).map
        (fun line =>
          recordOfValues (indexOfName "rock" (((text.splitOn "\n").getD 0 "").splitOn ","))
            (line.splitOn ","))
    ∧ parseCSV "x,y,z,dx,dy,dz,rock\nA\nB\nC\n10,20,30,2,2,2,granite\n" =
        [{ centroid_x := .fin 10, centroid_y := .fin 20, centroid_z := .fin 30,
           dim_x := .fin 2, dim_y := .fin 2, dim_z := .fin 2, rock := "granite" }] := by
  constructor
  · exact parseCSVLines_eq_filterMap _ _
  · with_unfolding_all decide

/-- C1 counterexample to the claim as stated: on this input the parser keeps
the data row whose centroid-x field reads `Infinity`, which does not parse as
a finite number, so the parser does not keep exactly the rows whose first and
fourth fields parse as finite numbers. -/
theorem parseCSV_finiteness_counterexample :
    (parseCSV "x,y,z,dx,dy,dz,rock\nA\nB\nInfinity,0,0,1,1,1,granite\n").length = 1
    ∧ (parseCSV "x,y,z,dx,dy,dz,rock\nA\nB\nInfinity,0,0,1,1,1,granite\n").getD 0 default
        = { centroid_x := .posInf, centroid_y := .fin 0, centroid_z := .fin 0,
            dim_x := .fin 1, dim_y := .fin 1, dim_z := .fin 1, rock := "granite" }
    ∧ (("x,y,z,dx,dy,dz,rock\nA\nB\nInfinity,0,0,1,1,1,granite\n".splitOn "\n").drop 3).filter
        rowKeptFinite = [] := by
  with_unfolding_all decide

/-- C8: when every line after the first three fails the row filter, the
parser returns the empty list (it raises no error), and the load pipeline
stops at the logged no-data outcome: no coordinate offset is computed and no
scene object is built. -/
theorem loadData_halts_on_all_malformed (text : String)
    (h : ∀ line ∈ (text.splitOn "\n").drop 3, rowKept line = false) :
    parseCSV text = [] ∧ loadDataModel text = LoadResult.emptyLogged := by
  have hp : parseCSV text = [] := by
    rw [show parseCSV text =
        (((text.splitOn "\n").drop 3).filter rowKept).map
          (fun line =>
            recordOfValues (indexOfName "rock" (((text.splitOn "\n").getD 0 "").splitOn ","))
              (line.splitOn ",")) from parseCSVLines_eq_filterMap _ _]
    rw [List.filter_eq_nil_iff.mpr (fun a ha => by simp [h a ha])]
    rfl
  refine ⟨hp, ?_⟩
  simp [loadDataModel, hp]

/-- C8 witness: a file whose only data row has two fields parses to nothing
and the pipeline reports the logged empty outcome. -/
theorem loadData_halts_witness :
    parseCSV "x,y,z\nA\nB\n1,2\n" = []
    ∧ loadDataModel "x,y,z\nA\nB\n1,2\n" = LoadResult.emptyLogged :=
  loadData_halts_on_all_malformed "x,y,z\nA\nB\n1,2\n" (by with_unfolding_all decide)

/-- C10: a data row with at least six fields, but no more fields than the
header-detected rock index requires, yields a record whose rock label is
the literal string unknown; the label is copied from the row exactly when the
rock index is in range.  End to end: a header declaring `rock` in column 7
with a seven-field data row yields one record labelled unknown. -/
theorem rock_label_unknown_when_out_of_range (r : ℕ) (values : List String)
    (h6 : 6 ≤ values.length) (hr : values.length ≤ r) :
    (recordOfValues (some r) values).rock = "unknown"
    ∧ (∀ (r' : ℕ) (values' : List String), r' < values'.length →
        (recordOfValues (some r') values').rock = values'.getD r' "")
    ∧ parseCSV "a,b,c,d,e,f,g,rock\nA\nB\n1,2,3,4,5,6,7\n" =
        [{ centroid_x := .fin 1, centroid_y := .fin 2, centroid_z := .fin 3,
           dim_x := .fin 4, dim_y := .fin 5, dim_z := .fin 6, rock := "unknown" }] := by
  refine ⟨?_, ?_, by with_unfolding_all decide⟩
  · simp [recordOfValues, Nat.not_lt.mpr hr]
  · intro r' values' hlt
    simp [recordOfValues, hlt]

/-- C10 witness: rock declared at column index 7, row of length 7. -/
theorem rock_label_unknown_witness :
    (recordOfValues (some 7) ["1", "2", "3", "4", "5", "6", "7"]).rock = "unknown" :=
  (rock_label_unknown_when_out_of_range 7 ["1", "2", "3", "4", "5", "6", "7"]
    (by decide) (by decide)).1

/-- The one-pass three-accumulator fold of `computeCoordinateOffset` computes
each axis independently. -/
theorem offsetFold_components (blocks : List BlockData) (v : Vec3) :
    blocks.foldl
        (fun acc b => ⟨acc.x.min b.centroid_x, acc.y.min b.centroid_y, acc.z.min b.centroid_z⟩) v
      = ⟨blocks.foldl (fun a b => a.min b.centroid_x) v.x,
         blocks.foldl (fun a b => a.min b.centroid_y) v.y,
         blocks.foldl (fun a b => a.min b.centroid_z) v.z⟩ := by
  induction blocks generalizing v with
  | nil => rfl
  | cons b bs ih => simp only [List.foldl_cons, ih]

/-- Folding the JavaScript minimum over finite numbers starting from a finite
number yields a finite lower bound attained by the start value or a list
element. -/
theorem foldl_jsmin_fin (l : List JSNum) :
    ∀ a : ℚ, (∀ n ∈ l, n.isFinite = true) →
      ∃ m : ℚ, l.foldl JSNum.min (.fin a) = .fin m ∧ m ≤ a
        ∧ (m = a ∨ JSNum.fin m ∈ l)
        ∧ ∀ n ∈ l, ∀ q : ℚ, n = .fin q → m ≤ q := by
  induction l with
  | nil =>
    intro a _
    exact ⟨a, rfl, le_refl a, Or.inl rfl, by simp⟩
  | cons n l ih =>
    intro a hf
    have hn : n.isFinite = true := hf n (List.mem_cons_self n l)
    cases n with
    | fin q0 =>
      have hstep : JSNum.min (.fin a) (.fin q0) = .fin (Min.min a q0) := rfl
      obtain ⟨m, hm, hle, hmem, hbd⟩ :=
        ih (Min.min a q0) (fun x hx => hf x (List.mem_cons_of_mem _ hx))
      refine ⟨m, ?_, ?_, ?_, ?_⟩
      · simpa [List.foldl_cons, hstep] using hm
      · exact le_trans hle (min_le_left a q0)
      · rcases hmem with hm' | hm'
        · rcases min_choice a q0 with hc | hc
          · exact Or.inl (by rw [hm', hc])
          · exact Or.inr (by rw [hm', hc]; exact List.mem_cons_self _ _)
        · exact Or.inr (List.mem_cons_of_mem _ hm')
      · intro x hx q hq
        rcases List.mem_cons.mp hx with hx | hx
        · rw [hx] at hq
          cases hq
          exact le_trans hle (min_le_right a q0)
        · exact hbd x hx q hq
    | nan => simp [JSNum.isFinite] at hn
    | posInf => simp [JSNum.isFinite] at hn
    | negInf => simp [JSNum.isFinite] at hn

/-- Along one axis, the fold starting at `Infinity` over a nonempty list of
blocks with finite values on that axis produces a value attained by some
block and lying below every block, so every value minus it passes the
nonnegativity check. -/
theorem offset_axis_min (key : BlockData → JSNum) (b0 : BlockData) (bs : List BlockData)
    (hf : ∀ b ∈ b0 :: bs, (key b).isFinite = true) :
    ((b0 :: bs).foldl (fun a b => a.min (key b)) JSNum.posInf ∈ (b0 :: bs).map key)
    ∧ ∀ b ∈ b0 :: bs,
        ((key b).sub ((b0 :: bs).foldl (fun a b => a.min (key b)) JSNum.posInf)).nonneg = true := by
  have hb0 : (key b0).isFinite = true := hf b0 (List.mem_cons_self b0 bs)
  obtain ⟨q0, hq0⟩ : ∃ q0 : ℚ, key b0 = .fin q0 := by
    cases hk : key b0 <;> rw [hk] at hb0 <;> simp [JSNum.isFinite] at hb0
    case fin q => exact ⟨q, rfl⟩
  have hfold0 : JSNum.min JSNum.posInf (key b0) = .fin q0 := by rw [hq0]; rfl
  have hmapfin : ∀ n ∈ bs.map key, n.isFinite = true := by
    intro n hn
    obtain ⟨b, hb, rfl⟩ := List.mem_map.mp hn
    exact hf b (List.mem_cons_of_mem b0 hb)
  obtain ⟨m, hm, hle, hmem, hbd⟩ := foldl_jsmin_fin (bs.map key) q0 hmapfin
  have hfold : (b0 :: bs).foldl (fun a b => a.min (key b)) JSNum.posInf = .fin m := by
    rw [List.foldl_cons, hfold0, ← List.foldl_map, hm]
  constructor
  · rw [hfold]
    rcases hmem with hm' | hm'
    · rw [List.map_cons, hm', ← hq0]
      exact List.mem_cons_self _ _
    · exact List.mem_cons_of_mem _ hm'
  · intro b hb
    obtain ⟨qb, hqb⟩ : ∃ qb : ℚ, key b = .fin qb := by
      have hbf := hf b hb
      cases hk : key b <;> rw [hk] at hbf <;> simp [JSNum.isFinite] at hbf
      case fin q => exact ⟨q, rfl⟩
    have hmqb : m ≤ qb := by
      rcases List.mem_cons.mp hb with hb' | hb'
      · rw [hb'] at hqb
        rw [hqb] at hq0
        cases hq0
        exact hle
      · exact hbd (key b) (List.mem_map_of_mem key hb') qb hqb
    rw [hfold, hqb]
    simp [JSNum.sub, JSNum.nonneg]
    linarith

/-- C2 (amended): for every non-empty parsed dataset all of whose centroid
components are finite, the computed offset is on each axis a value attained
by some block centroid that no block centroid lies below — the component-wise
minimum — and consequently every centroid minus the offset passes the
JavaScript nonnegativity check on all three axes. -/
theorem offset_componentwise_min (b0 : BlockData) (bs : List BlockData)
    (hfin : allCentroidsFinite (b0 :: bs) = true) :
    ((computeCoordinateOffset (b0 :: bs)).x ∈ (b0 :: bs).map (fun b => b.centroid_x)
      ∧ (computeCoordinateOffset (b0 :: bs)).y ∈ (b0 :: bs).map (fun b => b.centroid_y)
      ∧ (computeCoordinateOffset (b0 :: bs)).z ∈ (b0 :: bs).map (fun b => b.centroid_z))
    ∧ ∀ b ∈ b0 :: bs,
        (b.centroid_x.sub (computeCoordinateOffset (b0 :: bs)).x).nonneg = true
        ∧ (b.centroid_y.sub (computeCoordinateOffset (b0 :: bs)).y).nonneg = true
        ∧ (b.centroid_z.sub (computeCoordinateOffset (b0 :: bs)).z).nonneg = true := by
  have hx : ∀ b ∈ b0 :: bs, (b.centroid_x).isFinite = true := by
    intro b hb
    have := (List.all_eq_true.mp hfin) b hb
    simp only [Bool.and_eq_true] at this
    exact this.1.1
  have hy : ∀ b ∈ b0 :: bs, (b.centroid_y).isFinite = true := by
    intro b hb
    have := (List.all_eq_true.mp hfin) b hb
    simp only [Bool.and_eq_true] at this
    exact this.1.2
  have hz : ∀ b ∈ b0 :: bs, (b.centroid_z).isFinite = true := by
    intro b hb
    have := (List.all_eq_true.mp hfin) b hb
    simp only [Bool.and_eq_true] at this
    exact this.2
  have hoff : computeCoordinateOffset (b0 :: bs)
      = ⟨(b0 :: bs).foldl (fun a b => a.min b.centroid_x) JSNum.posInf,
         (b0 :: bs).foldl (fun a b => a.min b.centroid_y) JSNum.posInf,
         (b0 :: bs).foldl (fun a b => a.min b.centroid_z) JSNum.posInf⟩ := by
    unfold computeCoordinateOffset
    exact offsetFold_components (b0 :: bs) ⟨.posInf, .posInf, .posInf⟩
  obtain ⟨hxm, hxb⟩ := offset_axis_min (fun b => b.centroid_x) b0 bs hx
  obtain ⟨hym, hyb⟩ := offset_axis_min (fun b => b.centroid_y) b0 bs hy
  obtain ⟨hzm, hzb⟩ := offset_axis_min (fun b => b.centroid_z) b0 bs hz
  rw [hoff]
  exact ⟨⟨hxm, hym, hzm⟩, fun b hb => ⟨hxb b hb, hyb b hb, hzb b hb⟩⟩

/-- C2 witness: a concrete two-block dataset with finite centroids. -/
theorem offset_componentwise_min_witness :
    ((computeCoordinateOffset
        [{ centroid_x := .fin 5, centroid_y := .fin 7, centroid_z := .fin 9,
           dim_x := .fin 1, dim_y := .fin 1, dim_z := .fin 1, rock := "a" },
         { centroid_x := .fin 3, centroid_y := .fin 8, centroid_z := .fin 2,
           dim_x := .fin 1, dim_y := .fin 1, dim_z := .fin 1, rock := "b" }]).x
      ∈ ([{ centroid_x := .fin 5, centroid_y := .fin 7, centroid_z := .fin 9,
            dim_x := .fin 1, dim_y := .fin 1, dim_z := .fin 1, rock := "a" },
          { centroid_x := .fin 3, centroid_y := .fin 8, centroid_z := .fin 2,
            dim_x := .fin 1, dim_y := .fin 1, dim_z := .fin 1, rock := "b" }]
          : List BlockData).map (fun b => b.centroid_x)) := by
  have h := offset_componentwise_min
    { centroid_x := .fin 5, centroid_y := .fin 7, centroid_z := .fin 9,
      dim_x := .fin 1, dim_y := .fin 1, dim_z := .fin 1, rock := "a" }
    [{ centroid_x := .fin 3, centroid_y := .fin 8, centroid_z := .fin 2,
       dim_x := .fin 1, dim_y := .fin 1, dim_z := .fin 1, rock := "b" }]
    (by decide)
  exact h.1.1

/-- C2 counterexample to the claim as stated: this input parses to one block
(only centroid-x and dim-x are validated), its centroid-y is NaN, the
computed offset's y component is NaN, and the block's centroid-y minus the
offset fails the nonnegativity check, so it is not true that every non-empty
parsed dataset has all normalized centroids nonnegative. -/
theorem offset_componentwise_min_counterexample :
    parseCSV "x,y,z\nA\nB\n1,abc,3,1,1,1\n"
      = [{ centroid_x := .fin 1, centroid_y := .nan, centroid_z := .fin 3,
           dim_x := .fin 1, dim_y := .fin 1, dim_z := .fin 1, rock := "unknown" }]
    ∧ (computeCoordinateOffset (parseCSV "x,y,z\nA\nB\n1,abc,3,1,1,1\n")).y = .nan
    ∧ ¬ (∀ b ∈ parseCSV "x,y,z\nA\nB\n1,abc,3,1,1,1\n",
          (b.centroid_y.sub
            (computeCoordinateOffset (parseCSV "x,y,z\nA\nB\n1,abc,3,1,1,1\n")).y).nonneg
            = true) := by
  with_unfolding_all decide

/-- Membership is preserved by first-occurrence deduplication. -/
theorem mem_dedupFirst (a : String) : ∀ l : List String, (a ∈ dedupFirst l ↔ a ∈ l) := by
  intro l
  induction l using dedupFirst.induct with
  | case1 => simp [dedupFirst]
  | case2 x xs ih =>
    rw [dedupFirst]
    constructor
    · intro h
      rcases List.mem_cons.mp h with h | h
      · exact h ▸ List.mem_cons_self x xs
      · exact List.mem_cons_of_mem x (List.mem_of_mem_filter (ih.mp h))
    · intro h
      rcases List.mem_cons.mp h with h | h
      · exact h ▸ List.mem_cons_self x _
      · by_cases hax : a = x
        · exact hax ▸ List.mem_cons_self x _
        · refine List.mem_cons_of_mem x (ih.mpr ?_)
          exact List.mem_filter.mpr ⟨h, by simp [bne_iff_ne, hax]⟩

/-- First-occurrence deduplication produces a list without duplicates. -/
theorem dedupFirst_nodup : ∀ l : List String, (dedupFirst l).Nodup := by
  intro l
  induction l using dedupFirst.induct with
  | case1 => simp [dedupFirst]
  | case2 x xs ih =>
    rw [dedupFirst]
    refine List.nodup_cons.mpr ⟨?_, ih⟩
    intro hmem
    have := List.of_mem_filter ((mem_dedupFirst x _).mp hmem)
    simp at this

/-- C6: the color table has exactly one entry per distinct rock label (the
labels, in first-occurrence order, are pairwise distinct), the entry at
index `i` pairs label `i` with hue `i / k` at saturation 0.8 and lightness
0.6, and the whole assignment is a function of the ordered label list alone,
so re-running it on a dataset with the same ordered labels reproduces it. -/
theorem rock_colors_even_hue (blocks : List BlockData) :
    (rockColorsOf blocks).length = (rockTypesOf blocks).length
    ∧ (rockTypesOf blocks).Nodup
    ∧ (∀ i : ℕ, i < (rockTypesOf blocks).length →
        (rockColorsOf blocks)[i]? =
          some ((rockTypesOf blocks).getD i "",
            ⟨(i : ℚ) / ((rockTypesOf blocks).length : ℚ), 4/5, 3/5⟩))
    ∧ (∀ blocks' : List BlockData,
        blocks.map (fun b => b.rock) = blocks'.map (fun b => b.rock) →
        rockColorsOf blocks = rockColorsOf blocks') := by
  refine ⟨?_, dedupFirst_nodup _, ?_, ?_⟩
  · simp [rockColorsOf]
  · intro i hi
    simp [rockColorsOf, List.getElem?_eq_getElem, hi, List.enum_length,
      List.getD_eq_getElem, List.getElem_enum]
  · intro blocks' hmap
    unfold rockColorsOf rockTypesOf
    rw [hmap]

/-- C6 witness: three blocks with labels granite, basalt, granite give two
distinct labels; entry 1 is basalt with hue 1/2. -/
theorem rock_colors_even_hue_witness :
    (rockColorsOf
        [{ centroid_x := .fin 0, centroid_y := .fin 0, centroid_z := .fin 0,
           dim_x := .fin 1, dim_y := .fin 1, dim_z := .fin 1, rock := "granite" },
         { centroid_x := .fin 1, centroid_y := .fin 0, centroid_z := .fin 0,
           dim_x := .fin 1, dim_y := .fin 1, dim_z := .fin 1, rock := "basalt" },
         { centroid_x := .fin 2, centroid_y := .fin 0, centroid_z := .fin 0,
           dim_x := .fin 1, dim_y := .fin 1, dim_z := .fin 1, rock := "granite" }])[1]?
      = some ("basalt", ⟨1/2, 4/5, 3/5⟩) := by
  have h := (rock_colors_even_hue
    [{ centroid_x := .fin 0, centroid_y := .fin 0, centroid_z := .fin 0,
       dim_x := .fin 1, dim_y := .fin 1, dim_z := .fin 1, rock := "granite" },
     { centroid_x := .fin 1, centroid_y := .fin 0, centroid_z := .fin 0,
       dim_x := .fin 1, dim_y := .fin 1, dim_z := .fin 1, rock := "basalt" },
     { centroid_x := .fin 2, centroid_y := .fin 0, centroid_z := .fin 0,
       dim_x := .fin 1, dim_y := .fin 1, dim_z := .fin 1, rock := "granite" }]).2.2.1
    1 (by with_unfolding_all decide)
  rw [h]
  with_unfolding_all decide

/-- Mapping a list over two functions that agree on its members gives the
same concatenation of images. -/
theorem flatMap_congr_mem {α : Type} {f g : String → List α} :
    ∀ ks : List String, (∀ r ∈ ks, f r = g r) → ks.flatMap f = ks.flatMap g := by
  intro ks
  induction ks with
  | nil => intro _; rfl
  | cons k ks ih =>
    intro h
    simp only [List.flatMap_cons]
    rw [h k (List.mem_cons_self k ks), ih (fun r hr => h r (List.mem_cons_of_mem k hr))]

/-- Concatenating, over a duplicate-free list of keys covering every element,
the sublists of elements with each key is a permutation of the original
list. -/
theorem flatMap_filter_perm {α : Type} (key : α → String) :
    ∀ (ks : List String) (l : List α), ks.Nodup → (∀ b ∈ l, key b ∈ ks) →
      (ks.flatMap (fun r => l.filter (fun b => key b == r))).Perm l := by
  intro ks
  induction ks with
  | nil =>
    intro l _ hcov
    cases l with
    | nil => simp
    | cons b bs => exact absurd (hcov b (List.mem_cons_self b bs)) (List.not_mem_nil _)
  | cons k ks ih =>
    intro l hnd hcov
    have hknotin : k ∉ ks := (List.nodup_cons.mp hnd).1
    have hnd' : ks.Nodup := (List.nodup_cons.mp hnd).2
    have hfilters : ∀ r ∈ ks,
        l.filter (fun b => key b == r)
          = (l.filter (fun b => !(key b == k))).filter (fun b => key b == r) := by
      intro r hr
      rw [List.filter_filter]
      refine (List.filter_congr ?_).symm
      intro b _
      by_cases hbr : key b == r
      · have : ¬ (key b == k) = true := by
          intro hbk
          exact hknotin (((eq_of_beq hbk).symm.trans (eq_of_beq hbr)) ▸ hr)
        simp [hbr, this]
      · simp [hbr]
    have hcov' : ∀ b ∈ l.filter (fun b => !(key b == k)), key b ∈ ks := by
      intro b hb
      have hmem := List.mem_of_mem_filter hb
      have hne := List.of_mem_filter hb
      rcases List.mem_cons.mp (hcov b hmem) with h | h
      · simp [h] at hne
      · exact h
    have hperm' := ih (l.filter (fun b => !(key b == k))) hnd' hcov'
    have hsplit : (k :: ks).flatMap (fun r => l.filter (fun b => key b == r))
        = l.filter (fun b => key b == k)
            ++ ks.flatMap (fun r => (l.filter (fun b => !(key b == k))).filter
                (fun b => key b == r)) := by
      rw [List.flatMap_cons, flatMap_congr_mem ks hfilters]
    rw [hsplit]
    exact (List.Perm.append_left _ hperm').trans (List.filter_append_perm _ l)

/-- C7: when more than 5000 records are parsed, exactly 5000 box primitives
are created, and together they are the boxes of the first 5000 parsed
records in dataset order (the per-rock grouping only reorders them). -/
theorem visible_cap_truncation (off : Vec3) (blocks : List BlockData)
    (h : 5000 < blocks.length) :
    (renderBoxesOf off blocks).length = 5000
    ∧ (renderBoxesOf off blocks).Perm ((blocks.take 5000).map (renderBox off)) := by
  have hvis : visibleBlocksOf blocks = blocks.take 5000 := by
    unfold visibleBlocksOf maxVisibleBlocks
    rw [if_pos h]
  have hcov : ∀ b ∈ blocks.take 5000,
      b.rock ∈ rockTypesOf (blocks.take 5000) := by
    intro b hb
    unfold rockTypesOf
    exact (mem_dedupFirst _ _).mpr (List.mem_map_of_mem (fun x => x.rock) hb)
  have hperm : ((rockTypesOf (blocks.take 5000)).flatMap
      (fun r => (blocks.take 5000).filter (fun b => b.rock == r))).Perm
      (blocks.take 5000) :=
    flatMap_filter_perm (fun b => b.rock) (rockTypesOf (blocks.take 5000))
      (blocks.take 5000) (by unfold rockTypesOf; exact dedupFirst_nodup _) hcov
  have hboxes : renderBoxesOf off blocks
      = ((rockTypesOf (blocks.take 5000)).flatMap
          (fun r => (blocks.take 5000).filter (fun b => b.rock == r))).map
          (renderBox off) := by
    unfold renderBoxesOf
    rw [hvis, List.map_flatMap]
  have hperm2 : (renderBoxesOf off blocks).Perm ((blocks.take 5000).map (renderBox off)) := by
    rw [hboxes]
    exact hperm.map (renderBox off)
  refine ⟨?_, hperm2⟩
  rw [hperm2.length_eq, List.length_map, List.length_take]
  omega

/-- C7 witness: a dataset of 5001 identical blocks yields exactly 5000
boxes. -/
theorem visible_cap_truncation_witness :
    (renderBoxesOf ⟨.fin 0, .fin 0, .fin 0⟩
        (List.replicate 5001 (default : BlockData))).length = 5000 :=
  (visible_cap_truncation ⟨.fin 0, .fin 0, .fin 0⟩ (List.replicate 5001 default)
    (by rw [List.length_replicate]; omega)).1

/-- Reading back the component just written. -/
theorem PlaneTriple.get_set_same {α : Type} (t : PlaneTriple α) (p : PlaneKey) (v : α) :
    (t.set p v).get p = v := by
  cases p <;> rfl

/-- Repositioning the plane never changes which plane is active. -/
theorem updateClipPlane_active (s : ClipState) :
    (updateClipPlane s).activeClipPlane = s.activeClipPlane := by
  cases hs : s.activeClipPlane with
  | none => simp [updateClipPlane, hs]
  | some p =>
    simp only [updateClipPlane, hs]
    split <;> rfl

/-- Repositioning the plane never changes the renderer flag. -/
theorem updateClipPlane_flag (s : ClipState) :
    (updateClipPlane s).localClippingEnabled = s.localClippingEnabled := by
  cases hs : s.activeClipPlane with
  | none => simp [updateClipPlane, hs]
  | some p =>
    simp only [updateClipPlane, hs]
    split <;> rfl

/-- Repositioning the plane never changes the mesh materials. -/
theorem updateClipPlane_materials (s : ClipState) :
    (updateClipPlane s).materials = s.materials := by
  cases hs : s.activeClipPlane with
  | none => simp [updateClipPlane, hs]
  | some p =>
    simp only [updateClipPlane, hs]
    split <;> rfl

/-- While no plane is active, repositioning does nothing at all. -/
theorem updateClipPlane_none (s : ClipState) (h : s.activeClipPlane = none) :
    updateClipPlane s = s := by
  simp [updateClipPlane, h]

/-- Selecting a plane makes it the active plane. -/
theorem setActiveClipPlane_active (p : PlaneKey) (s : ClipState) :
    (setActiveClipPlane p s).activeClipPlane = some p := by
  show (updateClipPlane _).activeClipPlane = some p
  rw [updateClipPlane_active]
  split <;> rfl

/-- Selecting a plane turns the renderer flag on. -/
theorem setActiveClipPlane_flag (p : PlaneKey) (s : ClipState) :
    (setActiveClipPlane p s).localClippingEnabled = true := rfl

/-- While a plane is active, the slider handler stores the negated slider
value as that plane's constant. -/
theorem setClipOffset_constant_of_active (s : ClipState) (p : PlaneKey) (v : ℚ)
    (h : s.activeClipPlane = some p) :
    (setClipOffset v s).planeConstants.get p = -v := by
  show (updateClipPlane _).planeConstants.get p = -v
  simp only [updateClipPlane, h]
  split
  · exact PlaneTriple.get_set_same _ _ _
  · exact PlaneTriple.get_set_same _ _ _

/-- The renderer flag tracks whether a plane is active. -/
def clipFlagInv (s : ClipState) : Prop :=
  s.localClippingEnabled = s.activeClipPlane.isSome

/-- Every UI event preserves the flag invariant. -/
theorem clipStep_inv (s : ClipState) (e : ClipEvent) (h : clipFlagInv s) :
    clipFlagInv (clipStep s e) := by
  cases e with
  | selectPlane p =>
    show (setActiveClipPlane p s).localClippingEnabled
      = (setActiveClipPlane p s).activeClipPlane.isSome
    rw [setActiveClipPlane_flag, setActiveClipPlane_active]
    rfl
  | setOffset v =>
    show (setClipOffset v s).localClippingEnabled
      = (setClipOffset v s).activeClipPlane.isSome
    show (updateClipPlane _).localClippingEnabled = (updateClipPlane _).activeClipPlane.isSome
    rw [updateClipPlane_flag, updateClipPlane_active]
    exact h
  | disable => rfl

/-- The invariant holds after any event sequence from an invariant state. -/
theorem runClip_inv (evs : List ClipEvent) :
    ∀ s : ClipState, clipFlagInv s → clipFlagInv (runClip s evs) := by
  induction evs with
  | nil => intro s h; exact h
  | cons e evs ih =>
    intro s h
    exact ih (clipStep s e) (clipStep_inv s e h)

/-- C3: after any sequence of select, offset and disable events from the
freshly constructed state, the renderer-wide clipping flag is on exactly
when some plane is active; and disabling clipping from any reachable state
leaves the flag off and every mesh material with an empty clipping-plane
array. -/
theorem clipping_flag_iff_active (mats : List Material) (evs : List ClipEvent) :
    ((runClip (initClipState mats) evs).localClippingEnabled = true
      ↔ (runClip (initClipState mats) evs).activeClipPlane ≠ none)
    ∧ (disableClipping (runClip (initClipState mats) evs)).localClippingEnabled = false
    ∧ ∀ m ∈ (disableClipping (runClip (initClipState mats) evs)).materials,
        m.clippingPlanes = [] := by
  have hinv : clipFlagInv (runClip (initClipState mats) evs) :=
    runClip_inv evs (initClipState mats) rfl
  refine ⟨?_, rfl, ?_⟩
  · rw [clipFlagInv] at hinv
    rw [hinv]
    cases (runClip (initClipState mats) evs).activeClipPlane <;> simp
  · intro m hm
    have hm' : m ∈ (runClip (initClipState mats) evs).materials.map
        (fun m => { m with clippingPlanes := [] }) := hm
    obtain ⟨m0, _, rfl⟩ := List.mem_map.mp hm'
    rfl

/-- C4: from any state, selecting plane `p` and then moving the slider to
`v` stores `-v` as plane `p`'s constant; in particular selecting the XY
plane and setting 150 stores -150. -/
theorem clip_offset_sign_inverted (s : ClipState) (p : PlaneKey) (v : ℚ) :
    (setClipOffset v (setActiveClipPlane p s)).planeConstants.get p = -v
    ∧ (runClip (initClipState [])
        [ClipEvent.selectPlane PlaneKey.xy, ClipEvent.setOffset 150]).planeConstants.get
        PlaneKey.xy = -(150 : ℚ) := by
  constructor
  · exact setClipOffset_constant_of_active _ p v (setActiveClipPlane_active p s)
  · with_unfolding_all decide

/-- C9: while no plane is active the slider handler changes no plane
constant, no mesh material, no helper visibility, and not the renderer flag
(it only stores the slider value, which takes effect when a plane is next
selected). -/
theorem setOffset_noop_while_inactive (s : ClipState) (v : ℚ)
    (h : s.activeClipPlane = none) :
    (setClipOffset v s).planeConstants = s.planeConstants
    ∧ (setClipOffset v s).materials = s.materials
    ∧ (setClipOffset v s).localClippingEnabled = s.localClippingEnabled
    ∧ (setClipOffset v s).helperVisible = s.helperVisible
    ∧ (setClipOffset v s).activeClipPlane = none := by
  have heq : setClipOffset v s = { s with clipPosition := v } := by
    show updateClipPlane _ = _
    exact updateClipPlane_none _ h
  rw [heq]
  exact ⟨rfl, rfl, rfl, rfl, h⟩

/-- C9 witness: in the initial state (no active plane) a slider move to 150
leaves constants, materials and the flag as they were. -/
theorem setOffset_noop_witness :
    (setClipOffset 150 (initClipState [])).planeConstants
        = (initClipState []).planeConstants
    ∧ (setClipOffset 150 (initClipState [])).materials = (initClipState []).materials
    ∧ (setClipOffset 150 (initClipState [])).localClippingEnabled
        = (initClipState []).localClippingEnabled :=
  ⟨(setOffset_noop_while_inactive (initClipState []) 150 rfl).1,
   (setOffset_noop_while_inactive (initClipState []) 150 rfl).2.1,
   (setOffset_noop_while_inactive (initClipState []) 150 rfl).2.2.1⟩

/-- C5 (amended): for every block and any values of the two scale constants,
the height-exaggeration multiplier appears only in the vertical (source-Z)
extent and vertical position — the horizontal components are unchanged when
it varies — the horizontal extents are scaled by the scale-down constant,
the vertical extent carries both constants, and the horizontal positions are
only offset-translated, scaled by nothing; the source instantiates the
constants at 0.7 and 2. -/
theorem height_scale_vertical_only (hs hh hh' : ℚ) (off : Vec3) (b : BlockData) :
    (renderBoxWith hs hh off b).dims.x = b.dim_x.mul (.fin hs)
    ∧ (renderBoxWith hs hh off b).dims.z = b.dim_y.mul (.fin hs)
    ∧ (renderBoxWith hs hh off b).dims.y = (b.dim_z.mul (.fin hs)).mul (.fin hh)
    ∧ (renderBoxWith hs hh off b).pos.x = b.centroid_x.sub off.x
    ∧ (renderBoxWith hs hh off b).pos.z = b.centroid_y.sub off.y
    ∧ (renderBoxWith hs hh off b).pos.y = (b.centroid_z.sub off.z).mul (.fin hh)
    ∧ (renderBoxWith hs hh' off b).dims.x = (renderBoxWith hs hh off b).dims.x
    ∧ (renderBoxWith hs hh' off b).dims.z = (renderBoxWith hs hh off b).dims.z
    ∧ (renderBoxWith hs hh' off b).pos.x = (renderBoxWith hs hh off b).pos.x
    ∧ (renderBoxWith hs hh' off b).pos.z = (renderBoxWith hs hh off b).pos.z
    ∧ renderBox off b = renderBoxWith scaleFactor heightScaleFactor off b :=
  ⟨rfl, rfl, rfl, rfl, rfl, rfl, rfl, rfl, rfl, rfl, rfl⟩

/-- C5 counterexample to the claim as stated: for a block at normalized
horizontal position 100 the created mesh sits at x = 100, not at
0.7 * 100 = 70, so horizontal positions are not scaled by the 0.7 constant
and the code box differs from the claim-side box. -/
theorem horizontal_position_unscaled_counterexample :
    (renderBox ⟨.fin 0, .fin 0, .fin 0⟩
        { centroid_x := .fin 100, centroid_y := .fin 0, centroid_z := .fin 0,
          dim_x := .fin 1, dim_y := .fin 1, dim_z := .fin 1, rock := "granite" }).pos.x
      = .fin 100
    ∧ (specBoxOf scaleFactor heightScaleFactor ⟨.fin 0, .fin 0, .fin 0⟩
        { centroid_x := .fin 100, centroid_y := .fin 0, centroid_z := .fin 0,
          dim_x := .fin 1, dim_y := .fin 1, dim_z := .fin 1, rock := "granite" }).pos.x
      = .fin 70
    ∧ renderBox ⟨.fin 0, .fin 0, .fin 0⟩
        { centroid_x := .fin 100, centroid_y := .fin 0, centroid_z := .fin 0,
          dim_x := .fin 1, dim_y := .fin 1, dim_z := .fin 1, rock := "granite" }
      ≠ specBoxOf scaleFactor heightScaleFactor ⟨.fin 0, .fin 0, .fin 0⟩
        { centroid_x := .fin 100, centroid_y := .fin 0, centroid_z := .fin 0,
          dim_x := .fin 1, dim_y := .fin 1, dim_z := .fin 1, rock := "granite" } := by
  with_unfolding_all decide

/-- C3 witness: after selecting the XY plane the flag is on, and disabling
afterwards leaves the flag off with the (empty) material list clear. -/
theorem clipping_flag_iff_active_witness :
    ((runClip (initClipState []) [ClipEvent.selectPlane PlaneKey.xy]).localClippingEnabled = true
      ↔ (runClip (initClipState []) [ClipEvent.selectPlane PlaneKey.xy]).activeClipPlane ≠ none)
    ∧ (disableClipping (runClip (initClipState [])
        [ClipEvent.selectPlane PlaneKey.xy])).localClippingEnabled = false :=
  ⟨(clipping_flag_iff_active [] [ClipEvent.selectPlane PlaneKey.xy]).1,
   (clipping_flag_iff_active [] [ClipEvent.selectPlane PlaneKey.xy]).2.1⟩
